import Mathlib

/-!
Verification development for the RustyLisp interpreter.

Shallow embedding of the interpreter sources:
  src/lisp_expression.rs  — `LispExpression`
  src/tokenizer.rs        — `LispToken`, `tokenize`
  src/evaluate.rs         — `LispOutput`, `LispList`, `Environment` (as a
                            store of frames addressed by index), `evaluate`
  src/functions.rs        — `Function`, `LispFunction`, `Function.call`
  src/built_in_functions.rs — the built-in library

Rust `i64` is modelled as `Int` (no claim under scrutiny exercises
overflow); `Rc<RefCell<Environment>>` is modelled as an index into an
explicit store of frames, with the strong reference count of every frame
tracked so that `Rc` drops and `Weak::upgrade` behave as in the source;
`HashMap<String, _>` is modelled as an association list with
insert-or-replace semantics (key sets are what the code observes);
a Rust `panic!` is modelled as the `panic` constructor carrying the
message, and the fuel needed to make the interpreter total is threaded
separately as the `fuelOut` constructor so that running out of fuel is
never confused with a panic of the program.
-/

/-! ### Expressions (src/lisp_expression.rs) -/

inductive LispExpression where
  | Integer (n : Int)
  | Symbol (s : String)
  | List (l : List LispExpression)

/-! ### Tokenizer (src/tokenizer.rs) -/

inductive LispToken where
  | Integer (n : Int)
  | Symbol (s : String)
  | LeftParen
  | RightParen
deriving DecidableEq

/-- The numeric value of a run of decimal digit characters, accumulated
left to right exactly as `i64::from_str` does. -/
def digitsVal (ds : List Char) : Int :=
  ds.foldl (fun acc c => acc * 10 + ((c.toNat : Int) - 48)) 0

def i64Min : Int := -(2 ^ 63)

def i64Max : Int := 2 ^ 63 - 1

/-- Embedding of Rust `str::parse::<i64>` (`i64::from_str`): an optional
leading `+` or `-` sign followed by one or more ASCII decimal digits,
whose signed value fits in `i64`; anything else is an error (`none`). -/
def parseI64 (w : List Char) : Option Int :=
  let signed : Bool × List Char :=
    match w with
    | '+' :: rest => (false, rest)
    | '-' :: rest => (true, rest)
    | cs => (false, cs)
  match signed with
  | (neg, ds) =>
    if ds = [] then none
    else if ds.all Char.isDigit then
      let v : Int := if neg then -(digitsVal ds) else digitsVal ds
      if i64Min ≤ v ∧ v ≤ i64Max then some v else none
    else none

/-- ASCII white space as recognised by Rust `char::is_whitespace` /
`str::split_whitespace` (the non-ASCII Unicode white space code points
are not modelled; no claim mentions them). -/
def isRustWhitespace (c : Char) : Bool :=
  c == ' ' || c == '\t' || c == '\n' || c == '\r' || c == '\x0b' || c == '\x0c'

/-- `source.split("\n")`. -/
def splitLines : List Char → List (List Char)
  | [] => [[]]
  | c :: cs =>
    if c = '\n' then [] :: splitLines cs
    else
      match splitLines cs with
      | [] => [[c]]
      | l :: ls => (c :: l) :: ls

/-- The comment-removal loop of `tokenize`: for every line, characters are
pushed until a `;`; note the source pushes no separator between lines. -/
def removeComments (source : List Char) : List Char :=
  ((splitLines source).map (fun line => line.takeWhile (fun c => c != ';'))).flatten

/-- `.replace("(", " ( ").replace(")", " ) ")`. -/
def padParens (cs : List Char) : List Char :=
  cs.flatMap (fun c =>
    if c = '(' then [' ', '(', ' ']
    else if c = ')' then [' ', ')', ' ']
    else [c])

/-- `str::split_whitespace`: maximal runs of non-white-space characters,
empty chunks dropped. `acc` holds the current word reversed. -/
def splitWhitespaceAux : List Char → List Char → List (List Char)
  | [], acc => if acc = [] then [] else [acc.reverse]
  | c :: cs, acc =>
    if isRustWhitespace c then
      if acc = [] then splitWhitespaceAux cs []
      else acc.reverse :: splitWhitespaceAux cs []
    else splitWhitespaceAux cs (c :: acc)

def splitWhitespace (cs : List Char) : List (List Char) :=
  splitWhitespaceAux cs []

/-- The word-classification `match` of `tokenize`. -/
def classifyWord (w : List Char) : LispToken :=
  if w = ['('] then .LeftParen
  else if w = [')'] then .RightParen
  else
    match parseI64 w with
    | some n => .Integer n
    | none => .Symbol (String.mk w)

/-- `tokenize` (src/tokenizer.rs): strip comments, pad parentheses with
spaces, split on white space, classify each word. -/
def tokenize (source : List Char) : List LispToken :=
  (splitWhitespace (padParens (removeComments source))).map classifyWord

/-! ### Runtime values (src/evaluate.rs, src/functions.rs)

`BuiltinName` stands for the identity of the `Rc<dyn Fn>` wrapped by a
`BuiltInFunction`: each built-in closure is allocated exactly once when
`built_in_function_bindings` populates the root frame, so `Rc::ptr_eq`
coincides with equality of these names. -/

inductive BuiltinName where
  | add | sub | mul | div
  | equalCompare | lessThanCompare | lessThanOrEqualCompare
  | greaterThanCompare | greaterThanOrEqualCompare
  | makeList | carFunc | cdrFunc | isListFunc
  | listLengthFunc | listRefFunc | appendFunc | mapFunc | filterFunc
deriving DecidableEq

/-- A user closure (src/functions.rs `Function`): parameter names, body,
and the `Weak<RefCell<Environment>>` back-reference to the defining
frame, modelled as the frame's index in the store. -/
structure Function where
  parameters : List String
  body : LispExpression
  enclosing_frame : Nat

inductive LispFunction where
  | BuiltInFunction (name : BuiltinName)
  | Function (f : Function)

mutual
inductive LispOutput where
  | Void
  | Integer (n : Int)
  | Bool (b : Bool)
  | Lambda (f : LispFunction)
  | List (l : LispList)
inductive LispList where
  | Cons (car : LispOutput) (cdr : LispList)
  | Nil
end

/-! ### The list library (impl LispList, src/evaluate.rs lines 26-88) -/

/-- `LispList::build` from an iterator of values. -/
def LispList.build : List LispOutput → LispList
  | [] => .Nil
  | v :: rest => .Cons v (LispList.build rest)

/-- `LispList::get_car`; panics on `Nil`. -/
def LispList.get_car : LispList → Except String LispOutput
  | .Cons car _ => .ok car
  | .Nil => .error "lisp list is empty!"

/-- `LispList::get_cdr`; panics on `Nil`. -/
def LispList.get_cdr : LispList → Except String LispOutput
  | .Cons _ cdr => .ok (.List cdr)
  | .Nil => .error "lisp list is empty!"

/-- The inner `get_length` of `LispList::length`. -/
def LispList.get_length : LispList → Int
  | .Nil => 0
  | .Cons _ cdr => cdr.get_length + 1

/-- `LispList::length`. -/
def LispList.length (l : LispList) : LispOutput :=
  .Integer l.get_length

/-- `LispList::get` at an `i64` index; panics past the end. -/
def LispList.get : LispList → Int → Except String LispOutput
  | .Nil, _ => .error "index out of bounds!"
  | .Cons car cdr, index =>
    if index = 0 then .ok car
    else cdr.get (index - 1)

/-- Number of cons cells; used only as a termination measure below. -/
def LispList.natLength : LispList → Nat
  | .Nil => 0
  | .Cons _ cdr => cdr.natLength + 1

def totalNatLength (ls : List LispList) : Nat :=
  (ls.map LispList.natLength).sum

/-- `LispList::append` over a vector of lists (src/evaluate.rs 72-87). -/
def LispList.append : List LispList → LispList
  | [] => .Nil
  | l :: rest =>
    match l with
    | .Nil => LispList.append rest
    | .Cons car cdr => .Cons car (LispList.append (cdr :: rest))
termination_by ls => (totalNatLength ls, ls.length)
decreasing_by
  · simp [totalNatLength, LispList.natLength]
    omega
  · simp [totalNatLength, LispList.natLength]
    omega

/-! ### Environments (src/evaluate.rs lines 90-162)

An `Environment` behind `Rc<RefCell<_>>` becomes a `Frame` slot in a
`Store`; the slot index plays the role of the `Rc` pointer.  `strong`
is the frame's strong reference count; a freed frame leaves a `none`
slot so that indices (and hence `Weak` references held by closures)
stay stable.  Strong references in the source are exactly (1) the
local `Rc` each `let` form or `Function::call` holds while its body
runs, (2) the `parent_env` link of every live frame, and (3) the root
`Rc` the driver holds on the global frame; closures hold only `Weak`
references. -/

structure Frame where
  bindings : List (String × LispOutput)
  parent_env : Option Nat
  strong : Nat

structure Store where
  frames : List (Option Frame)

def Store.getFrame (s : Store) (i : Nat) : Option Frame :=
  (s.frames.getD i none)

def Store.setFrame (s : Store) (i : Nat) (f : Frame) : Store :=
  ⟨s.frames.set i (some f)⟩

/-- `Rc::new` on a fresh frame: append a slot; the new frame starts with
one strong reference (the local variable that received it). -/
def Store.alloc (s : Store) (f : Frame) : Nat × Store :=
  (s.frames.length, ⟨s.frames ++ [some f]⟩)

/-- `Rc::clone`: one more strong reference to frame `i`. -/
def Store.incStrong (s : Store) (i : Nat) : Store :=
  match s.getFrame i with
  | some f => s.setFrame i { f with strong := f.strong + 1 }
  | none => s

/-- Dropping one strong reference to frame `i`; when the count reaches
zero the frame is freed and the strong reference its `parent_env` held
is dropped in turn.  `fuel` only bounds the parent chain. -/
def Store.dropStrong : Nat → Store → Nat → Store
  | 0, s, _ => s
  | fuel + 1, s, i =>
    match s.getFrame i with
    | none => s
    | some f =>
      if f.strong ≤ 1 then
        let s' : Store := ⟨s.frames.set i none⟩
        match f.parent_env with
        | some p => Store.dropStrong fuel s' p
        | none => s'
      else s.setFrame i { f with strong := f.strong - 1 }

/-! Association-list model of `HashMap<String, LispOutput>`. -/

def assocGet : List (String × LispOutput) → String → Option LispOutput
  | [], _ => none
  | (k, v) :: rest, key => if k = key then some v else assocGet rest key

def assocContains (bs : List (String × LispOutput)) (key : String) : Bool :=
  (assocGet bs key).isSome

/-- `HashMap::insert`: replace the value under an existing key, else add
the pair. -/
def assocSet : List (String × LispOutput) → String → LispOutput → List (String × LispOutput)
  | [], key, v => [(key, v)]
  | (k, w) :: rest, key, v =>
    if k = key then (key, v) :: rest else (k, w) :: assocSet rest key v

/-- `HashMap::remove`. -/
def assocRemove : List (String × LispOutput) → String → List (String × LispOutput)
  | [], _ => []
  | (k, w) :: rest, key =>
    if k = key then rest else (k, w) :: assocRemove rest key

/-- Outcome of a computation that may panic or exhaust the modelling
fuel.  `panic` aborts the interpreter, so it carries no store. -/
inductive PartialResult (α : Type) where
  | ok (v : α)
  | panic (msg : String)
  | fuelOut

/-- `Environment::get` (lookup walking parent links). `fuel` only bounds
the parent chain; callers pass one more than the store size. -/
def envGet : Nat → Store → Nat → String → PartialResult LispOutput
  | 0, _, _, _ => .fuelOut
  | fuel + 1, s, e, var =>
    match s.getFrame e with
    | none => .panic "use of a freed environment"
    | some f =>
      match assocGet f.bindings var with
      | some v => .ok v
      | none =>
        match f.parent_env with
        | some p => envGet fuel s p var
        | none => .panic "variable not found in any environment"

/-- `Environment::set` (used by `define`): insert or overwrite in this
frame only. -/
def envSet (s : Store) (e : Nat) (var : String) (val : LispOutput) : Store :=
  match s.getFrame e with
  | some f => s.setFrame e { f with bindings := assocSet f.bindings var val }
  | none => s

/-- `Environment::del`: remove from this frame only; panics when the
name is not bound here (parents are not consulted). -/
def envDel (s : Store) (e : Nat) (var : String) : Except String (LispOutput × Store) :=
  match s.getFrame e with
  | none => .error "use of a freed environment"
  | some f =>
    match assocGet f.bindings var with
    | none => .error "variable not found in environment!"
    | some v => .ok (v, s.setFrame e { f with bindings := assocRemove f.bindings var })

/-- `Environment::set_bang`: overwrite in the first frame of the chain
that binds the name; panics when none does. -/
def setBang : Nat → Store → Nat → String → LispOutput → PartialResult (LispOutput × Store)
  | 0, _, _, _, _ => .fuelOut
  | fuel + 1, s, e, var, val =>
    match s.getFrame e with
    | none => .panic "use of a freed environment"
    | some f =>
      if assocContains f.bindings var then
        .ok (val, s.setFrame e { f with bindings := assocSet f.bindings var val })
      else
        match f.parent_env with
        | some p => setBang fuel s p var val
        | none => .panic "variable does not exist in any environment!"

/-! ### Built-in functions, pure part (src/built_in_functions.rs) -/

/-- `unwrap_lisp_outputs`: every argument must be an `Integer`. -/
def unwrap_lisp_outputs : List LispOutput → Except String (List Int)
  | [] => .ok []
  | .Integer n :: rest =>
    match unwrap_lisp_outputs rest with
    | .ok ns => .ok (n :: ns)
    | .error m => .error m
  | _ :: _ => .error "Only expecting integer arguments"

/-- `add`: sum of the integer arguments, empty sum 0. -/
def add (args : List LispOutput) : Except String LispOutput :=
  match unwrap_lisp_outputs args with
  | .ok ns => .ok (.Integer ns.sum)
  | .error m => .error m

/-- `sub`: unary negation, else first minus the sum of the rest. -/
def sub (args : List LispOutput) : Except String LispOutput :=
  if args.length = 1 then
    match args with
    | [.Integer n] => .ok (.Integer (-n))
    | _ => .error "Only expecting integer arugments"
  else
    match unwrap_lisp_outputs args with
    | .ok [] => .error "called Option::unwrap() on a None value"
    | .ok (first :: rest) => .ok (.Integer (first - rest.sum))
    | .error m => .error m

/-- `mul`: product with `fold(1, *)`. -/
def mul (args : List LispOutput) : Except String LispOutput :=
  match unwrap_lisp_outputs args with
  | .ok ns => .ok (.Integer (ns.foldl (fun acc next => acc * next) 1))
  | .error m => .error m

/-- `div`: needs at least two arguments; first divided by the product of
the rest, `i64` division truncating toward zero, panicking on zero. -/
def div (args : List LispOutput) : Except String LispOutput :=
  if args.length < 2 then
    .error "Need two or more arguments to apply division function"
  else
    match unwrap_lisp_outputs args with
    | .ok [] => .error "called Option::unwrap() on a None value"
    | .ok (first :: rest) =>
      let d := rest.foldl (fun acc next => acc * next) 1
      if d = 0 then .error "attempt to divide by zero"
      else .ok (.Integer (Int.tdiv first d))
    | .error m => .error m

/-- The pairwise-adjacent loop of `comparator`:
`for i in 0..numbers.len() - 1 { if !func(numbers[i], numbers[i+1]) ... }`. -/
def pairwiseCheck (func : Int → Int → Bool) : List Int → Bool
  | [] => true
  | [_] => true
  | x :: y :: rest => func x y && pairwiseCheck func (y :: rest)

/-- `comparator` (src/built_in_functions.rs 80-97): unwrap the arguments
to integers, then test the relation on every adjacent pair.  With zero
arguments `numbers.len() - 1` underflows `usize` and the code panics;
with one argument the loop body never runs and the result is
`Bool(true)`. -/
def comparator (func : Int → Int → Bool) (args : List LispOutput) : Except String LispOutput :=
  match unwrap_lisp_outputs args with
  | .error m => .error m
  | .ok numbers =>
    match numbers with
    | [] => .error "attempt to subtract with overflow"
    | _ :: _ => .ok (.Bool (pairwiseCheck func numbers))

def equal_compare (args : List LispOutput) : Except String LispOutput :=
  comparator (fun a b => a == b) args

def less_than_compare (args : List LispOutput) : Except String LispOutput :=
  comparator (fun a b => a < b) args

def less_than_or_equal_compare (args : List LispOutput) : Except String LispOutput :=
  comparator (fun a b => a ≤ b) args

def greater_than_compare (args : List LispOutput) : Except String LispOutput :=
  comparator (fun a b => b < a) args

def greater_than_or_equal_compare (args : List LispOutput) : Except String LispOutput :=
  comparator (fun a b => b ≤ a) args

/-- `make_list`. -/
def make_list (args : List LispOutput) : Except String LispOutput :=
  .ok (.List (LispList.build args))

/-- `car_func`: exactly one argument, which must be a list. -/
def car_func (args : List LispOutput) : Except String LispOutput :=
  match args with
  | [arg] =>
    match arg with
    | .List cons_cell => cons_cell.get_car
    | _ => .error "expecting a cons cell!"
  | _ => .error "incorrect nubmer of arguements"

/-- `cdr_func`. -/
def cdr_func (args : List LispOutput) : Except String LispOutput :=
  match args with
  | [arg] =>
    match arg with
    | .List cons_cell => cons_cell.get_cdr
    | _ => .error "expecting a cons cell!"
  | _ => .error "incorrect nubmer of arguements"

/-- `is_list_func`. -/
def is_list_func (args : List LispOutput) : Except String LispOutput :=
  match args with
  | [arg] =>
    match arg with
    | .List _ => .ok (.Bool true)
    | _ => .ok (.Bool false)
  | _ => .error "incorrect nubmer of arguements"

/-- `list_length_func`. -/
def list_length_func (args : List LispOutput) : Except String LispOutput :=
  match args with
  | [arg] =>
    match arg with
    | .List cons_cell => .ok cons_cell.length
    | _ => .error "expecting lisp list to get length"
  | _ => .error "incorrect nubmer of arguements"

/-- `list_ref_func`: the index is inspected first, negative indices
panic, then the list argument is indexed. -/
def list_ref_func (args : List LispOutput) : Except String LispOutput :=
  match args with
  | [first, second] =>
    match second with
    | .Integer index =>
      if index < 0 then .error "negative indicies are not supported!"
      else
        match first with
        | .List cons_cell => cons_cell.get index
        | _ => .error "expecting a cons cell to index into"
    | _ => .error "expecting an integer to use as index in list"
  | _ => .error "incorrect nubmer of arguements"

/-- The list-unwrapping `map` inside `append_func`. -/
def unwrapLists : List LispOutput → Except String (List LispList)
  | [] => .ok []
  | .List l :: rest =>
    match unwrapLists rest with
    | .ok ls => .ok (l :: ls)
    | .error m => .error m
  | _ :: _ => .error "expecting only lisp lists for append built-in!"

/-- `append_func`. -/
def append_func (args : List LispOutput) : Except String LispOutput :=
  match unwrapLists args with
  | .ok lists => .ok (.List (LispList.append lists))
  | .error m => .error m

/-! ### User closures (src/functions.rs) -/

/-- The parameter-collection loop of `Function::build`. -/
def collectParams : List LispExpression → Except String (List String)
  | [] => .ok []
  | .Symbol param :: rest =>
    match collectParams rest with
    | .ok ps => .ok (param :: ps)
    | .error m => .error m
  | _ :: _ => .error "one or more parameters is not a LispExpression symbol"

/-- `Function::build` (src/functions.rs 89-110): the parameter expression
must be a list of symbols; the names are collected in order with no
further validation, and the defining frame is stored as a weak
reference. -/
def Function.build (parameters : LispExpression) (body : LispExpression)
    (enclosing_frame : Nat) : Except String Function :=
  match parameters with
  | .List param_expressions =>
    match collectParams param_expressions with
    | .ok params => .ok ⟨params, body, enclosing_frame⟩
    | .error m => .error m
  | _ => .error "parameters should be a list"

/-- The bindings a call builds: `zip(&self.parameters, args)` inserted
into a fresh `HashMap` — the zip silently stops at the shorter side. -/
def zipBindings (parameters : List String) (args : List LispOutput) :
    List (String × LispOutput) :=
  (parameters.zip args).foldl (fun acc pa => assocSet acc pa.1 pa.2) []

/-! ### The built-ins frame and the global frame (src/evaluate.rs
113-125, src/built_in_functions.rs 254-280) -/

def convert_to_built_in (name : BuiltinName) : LispOutput :=
  .Lambda (.BuiltInFunction name)

/-- `built_in_function_bindings`, in source order (a `HashMap` does not
expose an order; lookups only see the key-value mapping, whose keys are
pairwise distinct here). -/
def built_in_function_bindings : List (String × LispOutput) :=
  [("+", convert_to_built_in .add),
   ("-", convert_to_built_in .sub),
   ("*", convert_to_built_in .mul),
   ("/", convert_to_built_in .div),
   ("equal?", convert_to_built_in .equalCompare),
   ("<", convert_to_built_in .lessThanCompare),
   ("<=", convert_to_built_in .lessThanOrEqualCompare),
   (">", convert_to_built_in .greaterThanCompare),
   (">=", convert_to_built_in .greaterThanOrEqualCompare),
   ("#t", .Bool true),
   ("#f", .Bool false),
   ("nil", .List .Nil),
   ("list", convert_to_built_in .makeList),
   ("car", convert_to_built_in .carFunc),
   ("cdr", convert_to_built_in .cdrFunc),
   ("list?", convert_to_built_in .isListFunc),
   ("length", convert_to_built_in .listLengthFunc),
   ("list-ref", convert_to_built_in .listRefFunc),
   ("append", convert_to_built_in .appendFunc),
   ("map", convert_to_built_in .mapFunc),
   ("filter", convert_to_built_in .filterFunc)]

/-- `Environment::built_ins_env`, pinned at slot 0 of the initial store;
its one strong reference is the global frame's `parent_env` link. -/
def builtInsFrame : Frame :=
  ⟨built_in_function_bindings, none, 1⟩

/-- `Environment::global_env`, slot 1; its one strong reference is the
`Rc` the REPL driver holds for the whole session. -/
def globalFrame : Frame :=
  ⟨[], some 0, 1⟩

/-- The store right after `Environment::global_env()`. -/
def initStore : Store :=
  ⟨[some builtInsFrame, some globalFrame]⟩

/-- The index of the global environment in `initStore`. -/
def globalEnv : Nat := 1

/-- Runs a pure built-in against the current store: its value is paired
with the unchanged store, its panic aborts. -/
def liftPure (r : Except String LispOutput) (s : Store) : PartialResult (LispOutput × Store) :=
  match r with
  | .ok v => .ok (v, s)
  | .error m => .panic m

/-! ### The evaluator (src/evaluate.rs 164-303, src/functions.rs 69-85,
src/built_in_functions.rs 189-245)

One mutual block, structurally recursive on a fuel argument so that
every equation reduces definitionally; `fuelOut` marks exhaustion.
`evaluate (fuel+1)` dispatches exactly as the Rust `match`: special
forms on a symbol head, everything else through function application.
The arity guard `check_arguments` is modelled by the list patterns: a
`rest` of the wrong length falls to the `BadSpecialForm` panic arm. -/

mutual

def evaluate : Nat → LispExpression → Nat → Store → PartialResult (LispOutput × Store)
  | 0, _, _, _ => .fuelOut
  | _ + 1, .Integer num, _, s => .ok (.Integer num, s)
  | _ + 1, .Symbol var, env, s =>
    match envGet (s.frames.length + 1) s env var with
    | .ok v => .ok (v, s)
    | .panic m => .panic m
    | .fuelOut => .fuelOut
  | n + 1, .List expressions, env, s =>
    match expressions with
    | [] => .panic "list of expression cannot be empty!"
    | head :: rest =>
      match head with
      | .Symbol built_in =>
        if built_in = "define" then
          match rest with
          | [varExpr, valExpr] =>
            match varExpr with
            | .Symbol var =>
              match evaluate n valExpr env s with
              | .ok (val, s') => .ok (val, envSet s' env var val)
              | r => r
            | _ => .panic "var must be LispExpression Symbol"
          | _ => .panic "special form was not supplied with correct number of arugments"
        else if built_in = "lambda" then
          match rest with
          | [parameters, body] =>
            match Function.build parameters body env with
            | .ok f => .ok (.Lambda (.Function f), s)
            | .error m => .panic m
          | _ => .panic "special form was not supplied with correct number of arugments"
        else if built_in = "if" then
          match rest with
          | [condition, true_expr, false_expr] =>
            match evaluate n condition env s with
            | .ok (v, s') =>
              match v with
              | .Bool true => evaluate n true_expr env s'
              | _ => evaluate n false_expr env s'
            | r => r
          | _ => .panic "special form was not supplied with correct number of arugments"
        else if built_in = "and" then
          evalAndLoop n rest env s
        else if built_in = "or" then
          evalOrLoop n rest env s
        else if built_in = "del" then
          match rest with
          | [symExpr] =>
            match symExpr with
            | .Symbol symbol =>
              match envDel s env symbol with
              | .ok (v, s') => .ok (v, s')
              | .error m => .panic m
            | _ => .panic "expecting a symbol when removing a binding!"
          | _ => .panic "special form was not supplied with correct number of arugments"
        else if built_in = "let" then
          match rest with
          | [defsExpr, body] =>
            match defsExpr with
            | .List definitions =>
              match evalLetBindings n definitions env s [] with
              | .ok (bindings, s') =>
                match Store.alloc (s'.incStrong env) ⟨bindings, some env, 1⟩ with
                | (new_env, s2) =>
                  match evaluate n body new_env s2 with
                  | .ok (v, s3) => .ok (v, Store.dropStrong (s3.frames.length + 1) s3 new_env)
                  | r => r
              | .panic m => .panic m
              | .fuelOut => .fuelOut
            | _ => .panic "expecting list of bindings"
          | _ => .panic "special form was not supplied with correct number of arugments"
        else if built_in = "set!" then
          match rest with
          | [varExpr, valExpr] =>
            match varExpr with
            | .Symbol varName =>
              match evaluate n valExpr env s with
              | .ok (value, s') =>
                match setBang (s'.frames.length + 1) s' env varName value with
                | .ok (v, s2) => .ok (v, s2)
                | .panic m => .panic m
                | .fuelOut => .fuelOut
              | r => r
            | _ => .panic "expecting variable to be String type!"
          | _ => .panic "special form was not supplied with correct number of arugments"
        else
          evalApplication n head rest env s
      | _ => evalApplication n head rest env s
termination_by structural fuel _ _ _ => fuel

/-- The `and` loop: a clause evaluating to exactly `Bool(false)` is
returned at once; any other value continues; exhaustion gives
`Bool(true)`. -/
def evalAndLoop : Nat → List LispExpression → Nat → Store → PartialResult (LispOutput × Store)
  | 0, _, _, _ => .fuelOut
  | _ + 1, [], _, s => .ok (.Bool true, s)
  | n + 1, e :: es, env, s =>
    match evaluate n e env s with
    | .ok (clause_bool, s') =>
      match clause_bool with
      | .Bool false => .ok (.Bool false, s')
      | _ => evalAndLoop n es env s'
    | r => r
termination_by structural fuel _ _ _ => fuel

/-- The `or` loop: short-circuits on exactly `Bool(true)`. -/
def evalOrLoop : Nat → List LispExpression → Nat → Store → PartialResult (LispOutput × Store)
  | 0, _, _, _ => .fuelOut
  | _ + 1, [], _, s => .ok (.Bool false, s)
  | n + 1, e :: es, env, s =>
    match evaluate n e env s with
    | .ok (clause_bool, s') =>
      match clause_bool with
      | .Bool true => .ok (.Bool true, s')
      | _ => evalOrLoop n es env s'
    | r => r
termination_by structural fuel _ _ _ => fuel

/-- The binding loop of the `let` arm: each binding is a list whose
first element must be a symbol and whose second is evaluated in the
enclosing frame; extra elements are ignored, missing ones panic with
the `Vec` index error. -/
def evalLetBindings : Nat → List LispExpression → Nat → Store →
    List (String × LispOutput) → PartialResult (List (String × LispOutput) × Store)
  | 0, _, _, _, _ => .fuelOut
  | _ + 1, [], _, s, acc => .ok (acc, s)
  | n + 1, d :: defs, env, s, acc =>
    match d with
    | .List binding =>
      match binding with
      | .Symbol var :: expr :: _ =>
        match evaluate n expr env s with
        | .ok (val, s') => evalLetBindings n defs env s' (assocSet acc var val)
        | .panic m => .panic m
        | .fuelOut => .fuelOut
      | .Symbol _ :: [] => .panic "index out of bounds"
      | _ :: _ => .panic "expecting first element of binding to be symbol!"
      | [] => .panic "index out of bounds"
    | _ => .panic "each binding should be a LispExpression List!"
termination_by structural fuel _ _ _ _ => fuel

/-- Left-to-right evaluation of an application's argument expressions. -/
def evalArgs : Nat → List LispExpression → Nat → Store → PartialResult (List LispOutput × Store)
  | 0, _, _, _ => .fuelOut
  | _ + 1, [], _, s => .ok ([], s)
  | n + 1, e :: es, env, s =>
    match evaluate n e env s with
    | .ok (v, s') =>
      match evalArgs n es env s' with
      | .ok (vs, s2) => .ok (v :: vs, s2)
      | r => r
    | .panic m => .panic m
    | .fuelOut => .fuelOut
termination_by structural fuel _ _ _ => fuel

/-- Function application: the head is evaluated and must be a function
value, then the arguments, then the call. -/
def evalApplication : Nat → LispExpression → List LispExpression → Nat → Store →
    PartialResult (LispOutput × Store)
  | 0, _, _, _, _ => .fuelOut
  | n + 1, head, rest, env, s =>
    match evaluate n head env s with
    | .ok (fv, s') =>
      match fv with
      | .Lambda function =>
        match evalArgs n rest env s' with
        | .ok (args, s2) => lispCall n function args s2
        | .panic m => .panic m
        | .fuelOut => .fuelOut
      | _ => .panic "expected function for first expression of list"
    | r => r
termination_by structural fuel _ _ _ _ => fuel

/-- `LispFunction::call`: dispatch between the two function flavours. -/
def lispCall : Nat → LispFunction → List LispOutput → Store → PartialResult (LispOutput × Store)
  | 0, _, _, _ => .fuelOut
  | n + 1, .BuiltInFunction name, args, s => builtinApply n name args s
  | n + 1, .Function f, args, s => callFn n f args s
termination_by structural fuel _ _ _ => fuel

/-- `Function::call` (src/functions.rs 69-85): upgrade the weak
reference to the captured frame (`upgrade().unwrap()` — a freed frame
panics), zip parameters with arguments into a fresh child frame with no
arity check, evaluate the body there, and drop the child frame's local
`Rc` when the call returns. -/
def callFn : Nat → Function → List LispOutput → Store → PartialResult (LispOutput × Store)
  | 0, _, _, _ => .fuelOut
  | n + 1, f, args, s =>
    match s.getFrame f.enclosing_frame with
    | none => .panic "called Option::unwrap() on a None value"
    | some _ =>
      match Store.alloc (s.incStrong f.enclosing_frame)
          ⟨zipBindings f.parameters args, some f.enclosing_frame, 1⟩ with
      | (new_env, s') =>
        match evaluate n f.body new_env s' with
        | .ok (v, s2) => .ok (v, Store.dropStrong (s2.frames.length + 1) s2 new_env)
        | r => r
termination_by structural fuel _ _ _ => fuel

/-- Dispatch of the built-in function identified by `name`; the pure
built-ins never touch the store. -/
def builtinApply : Nat → BuiltinName → List LispOutput → Store → PartialResult (LispOutput × Store)
  | 0, _, _, _ => .fuelOut
  | _ + 1, .add, args, s => liftPure (add args) s
  | _ + 1, .sub, args, s => liftPure (sub args) s
  | _ + 1, .mul, args, s => liftPure (mul args) s
  | _ + 1, .div, args, s => liftPure (div args) s
  | _ + 1, .equalCompare, args, s => liftPure (equal_compare args) s
  | _ + 1, .lessThanCompare, args, s => liftPure (less_than_compare args) s
  | _ + 1, .lessThanOrEqualCompare, args, s => liftPure (less_than_or_equal_compare args) s
  | _ + 1, .greaterThanCompare, args, s => liftPure (greater_than_compare args) s
  | _ + 1, .greaterThanOrEqualCompare, args, s => liftPure (greater_than_or_equal_compare args) s
  | _ + 1, .makeList, args, s => liftPure (make_list args) s
  | _ + 1, .carFunc, args, s => liftPure (car_func args) s
  | _ + 1, .cdrFunc, args, s => liftPure (cdr_func args) s
  | _ + 1, .isListFunc, args, s => liftPure (is_list_func args) s
  | _ + 1, .listLengthFunc, args, s => liftPure (list_length_func args) s
  | _ + 1, .listRefFunc, args, s => liftPure (list_ref_func args) s
  | _ + 1, .appendFunc, args, s => liftPure (append_func args) s
  | n + 1, .mapFunc, args, s => map_func n args s
  | n + 1, .filterFunc, args, s => filter_func n args s
termination_by structural fuel _ _ _ => fuel

/-- `map_func` (src/built_in_functions.rs 189-211). -/
def map_func : Nat → List LispOutput → Store → PartialResult (LispOutput × Store)
  | 0, _, _ => .fuelOut
  | n + 1, args, s =>
    match args with
    | [first, second] =>
      match second with
      | .Lambda function =>
        match first with
        | .List list =>
          match apply_map n list function s with
          | .ok (l, s') => .ok (.List l, s')
          | .panic m => .panic m
          | .fuelOut => .fuelOut
        | _ => .panic "expecting first argument to be lisp list!"
      | _ => .panic "expecting second argument to be lisp function!"
    | _ => .panic "incorrect nubmer of arguements"
termination_by structural fuel _ _ => fuel

/-- The inner `apply_map` recursion. -/
def apply_map : Nat → LispList → LispFunction → Store → PartialResult (LispList × Store)
  | 0, _, _, _ => .fuelOut
  | _ + 1, .Nil, _, s => .ok (.Nil, s)
  | n + 1, .Cons car cdr, func, s =>
    match lispCall n func [car] s with
    | .ok (v, s') =>
      match apply_map n cdr func s' with
      | .ok (l, s2) => .ok (.Cons v l, s2)
      | r => r
    | .panic m => .panic m
    | .fuelOut => .fuelOut
termination_by structural fuel _ _ _ => fuel

/-- `filter_func` (src/built_in_functions.rs 213-245). -/
def filter_func : Nat → List LispOutput → Store → PartialResult (LispOutput × Store)
  | 0, _, _ => .fuelOut
  | n + 1, args, s =>
    match args with
    | [first, second] =>
      match second with
      | .Lambda function =>
        match first with
        | .List list =>
          match apply_filter n list function s with
          | .ok (l, s') => .ok (.List l, s')
          | .panic m => .panic m
          | .fuelOut => .fuelOut
        | _ => .panic "expecting first argument to be lisp list!"
      | _ => .panic "expecting second argument to be lisp function!"
    | _ => .panic "incorrect nubmer of arguements"
termination_by structural fuel _ _ => fuel

/-- The inner `apply_filter` recursion: the predicate must return a
`Bool`; `true` keeps the element. -/
def apply_filter : Nat → LispList → LispFunction → Store → PartialResult (LispList × Store)
  | 0, _, _, _ => .fuelOut
  | _ + 1, .Nil, _, s => .ok (.Nil, s)
  | n + 1, .Cons car cdr, func, s =>
    match lispCall n func [car] s with
    | .ok (v, s') =>
      match v with
      | .Bool should_keep =>
        if should_keep then
          match apply_filter n cdr func s' with
          | .ok (l, s2) => .ok (.Cons car l, s2)
          | r => r
        else apply_filter n cdr func s'
      | _ => .panic "expecting element to evaluate to boolean!"
    | .panic m => .panic m
    | .fuelOut => .fuelOut
termination_by structural fuel _ _ _ => fuel

end

/-- The REPL loop of src/main.rs restricted to a fixed list of inputs:
each program is evaluated in order against the persistent global frame,
and the last program's result is returned. -/
def evalSequence : Nat → List LispExpression → Nat → Store → PartialResult (LispOutput × Store)
  | _, [], _, s => .ok (.Void, s)
  | fuel, [p], env, s => evaluate fuel p env s
  | fuel, p :: rest, env, s =>
    match evaluate fuel p env s with
    | .ok (_, s') => evalSequence fuel rest env s'
    | r => r

/-- The value of a successful evaluation. -/
def resultValue : PartialResult (LispOutput × Store) → Option LispOutput
  | .ok (v, _) => some v
  | _ => none

/-- The store of a successful evaluation. -/
def resultStore : PartialResult (LispOutput × Store) → Option Store
  | .ok (_, s) => some s
  | _ => none

/-! ### Helper lemmas about the list library -/

theorem append_singleton : (xs : LispList) → LispList.append [xs] = xs
  | .Nil => by simp [LispList.append]
  | .Cons c cd => by
    rw [LispList.append]
    simp [append_singleton cd]

theorem append_pair_get_length : (xs ys : LispList) →
    (LispList.append [xs, ys]).get_length = xs.get_length + ys.get_length
  | .Nil, ys => by
    rw [LispList.append]
    simp [append_singleton ys, LispList.get_length]
  | .Cons c cd, ys => by
    rw [LispList.append]
    simp only [LispList.get_length, append_pair_get_length cd ys]
    ring

theorem append_pair_nil_left (xs : LispList) : LispList.append [.Nil, xs] = xs := by
  rw [LispList.append]
  simp [append_singleton xs]

theorem append_pair_nil_right : (xs : LispList) → LispList.append [xs, .Nil] = xs
  | .Nil => by rw [LispList.append]; simp [append_singleton]
  | .Cons c cd => by
    rw [LispList.append]
    simp [append_pair_nil_right cd]

/-! ### Helper lemmas about comparator -/

theorem unwrap_map_integer : (xs : List Int) →
    unwrap_lisp_outputs (xs.map .Integer) = .ok xs
  | [] => rfl
  | x :: rest => by
    simp only [List.map_cons, unwrap_lisp_outputs, unwrap_map_integer rest]

theorem pairwiseCheck_iff_chain (f : Int → Int → Bool) :
    (xs : List Int) → (pairwiseCheck f xs = true ↔ List.Chain' (fun a b => f a b = true) xs)
  | [] => by simp [pairwiseCheck]
  | [x] => by simp [pairwiseCheck]
  | x :: y :: rest => by
    rw [pairwiseCheck]
    simp [List.chain'_cons, pairwiseCheck_iff_chain f (y :: rest), Bool.and_eq_true]

/-! ### Helper lemmas about zipBindings -/

theorem zip_take_left : (ps : List String) → (bs cs : List LispOutput) →
    ps.length ≤ bs.length → ps.zip (bs ++ cs) = ps.zip bs
  | [], _, _, _ => by simp
  | p :: ps', [], cs, h => by simp at h
  | p :: ps', b :: bs', cs, h => by
    have ih := zip_take_left ps' bs' cs (by simpa using h)
    simp [ih]

theorem zipBindings_surplus (ps : List String) (bs cs : List LispOutput)
    (h : ps.length ≤ bs.length) : zipBindings ps (bs ++ cs) = zipBindings ps bs := by
  unfold zipBindings
  rw [zip_take_left ps bs cs h]

/-! ### Helper lemma about collectParams -/

theorem collectParams_map_symbol : (names : List String) →
    collectParams (names.map .Symbol) = .ok names
  | [] => rfl
  | n :: rest => by
    simp only [List.map_cons, collectParams, collectParams_map_symbol rest]

/-! ### Concrete programs used by the claims -/

/-- `(define x 1)`; `(define f (lambda () x))`; `(define x 2)`; `(f)`. -/
def scopePrograms : List LispExpression :=
  [.List [.Symbol "define", .Symbol "x", .Integer 1],
   .List [.Symbol "define", .Symbol "f", .List [.Symbol "lambda", .List [], .Symbol "x"]],
   .List [.Symbol "define", .Symbol "x", .Integer 2],
   .List [.Symbol "f"]]

/-- `((let ((a 1)) (lambda () a)))`: a closure is created inside a `let`
body, returned out of it, and immediately called. -/
def escapingClosureProgram : LispExpression :=
  .List [.List [.Symbol "let", .List [.List [.Symbol "a", .Integer 1]],
    .List [.Symbol "lambda", .List [], .Symbol "a"]]]

/-- `((lambda (x) 1) 5 6)`: a one-parameter closure called with two
arguments. -/
def surplusArgsProgram : LispExpression :=
  .List [.List [.Symbol "lambda", .List [.Symbol "x"], .Integer 1], .Integer 5, .Integer 6]

/-- `(lambda (x x) 1)`: a parameter list with a repeated name. -/
def duplicateParamsLambda : LispExpression :=
  .List [.Symbol "lambda", .List [.Symbol "x", .Symbol "x"], .Integer 1]

/-- `(set! + 7)`. -/
def setBangPlusProgram : LispExpression :=
  .List [.Symbol "set!", .Symbol "+", .Integer 7]

/-- The binding the built-ins frame holds for `name` after the given
evaluation succeeded. -/
def builtinsBindingAfter (r : PartialResult (LispOutput × Store)) (name : String) :
    Option LispOutput :=
  (resultStore r).bind (fun s => (s.getFrame 0).bind (fun f => assocGet f.bindings name))

/-! ### C9 -/

/-- C9: for all lists `xs` and `ys`, the length of `append([xs, ys])` is
the sum of the lengths, and appending with `Nil` on either side is the
identity. -/
theorem append_length_and_nil_identity (xs ys : LispList) :
    (LispList.append [xs, ys]).get_length = xs.get_length + ys.get_length
    ∧ LispList.append [.Nil, xs] = xs
    ∧ LispList.append [xs, .Nil] = xs :=
  ⟨append_pair_get_length xs ys, append_pair_nil_left xs, append_pair_nil_right xs⟩

/-! ### C8 -/

/-- C8 counterexample: the comparison built-in `equal?` called with a
single argument does not fail — the adjacent-pair loop body never runs
and the call returns `Bool(true)`, although the claim demands a failure
for fewer than two arguments. -/
theorem equal_compare_single_arg_returns_true :
    equal_compare [.Integer 5] = .ok (.Bool true) := rfl

/-- C8 amended: a comparison built-in panics on zero arguments (the
`usize` underflow in `numbers.len() - 1`), returns `Bool(true)` on one
integer argument, and on two or more integer arguments returns
`Bool(true)` iff the relation holds between every consecutive pair,
`Bool(false)` otherwise. -/
theorem comparator_adjacent_pairs (f : Int → Int → Bool) (xs : List Int) :
    comparator f [] = .error "attempt to subtract with overflow"
    ∧ (∀ x : Int, comparator f [.Integer x] = .ok (.Bool true))
    ∧ (2 ≤ xs.length →
        ((comparator f (xs.map .Integer) = .ok (.Bool true)
            ↔ List.Chain' (fun a b => f a b = true) xs)
         ∧ (comparator f (xs.map .Integer) = .ok (.Bool false)
            ↔ ¬ List.Chain' (fun a b => f a b = true) xs))) := by
  refine ⟨rfl, fun x => rfl, fun hlen => ?_⟩
  match xs with
  | [] => simp at hlen
  | x :: rest =>
    have hu : unwrap_lisp_outputs ((x :: rest).map .Integer) = .ok (x :: rest) :=
      unwrap_map_integer (x :: rest)
    have hc : comparator f ((x :: rest).map .Integer)
        = .ok (.Bool (pairwiseCheck f (x :: rest))) := by
      rw [comparator, hu]
    rw [hc]
    constructor
    · constructor
      · intro h
        have : pairwiseCheck f (x :: rest) = true := by
          simpa using h
        exact (pairwiseCheck_iff_chain f (x :: rest)).1 this
      · intro h
        have : pairwiseCheck f (x :: rest) = true :=
          (pairwiseCheck_iff_chain f (x :: rest)).2 h
        rw [this]
    · constructor
      · intro h hchain
        have ht : pairwiseCheck f (x :: rest) = true :=
          (pairwiseCheck_iff_chain f (x :: rest)).2 hchain
        rw [ht] at h
        simp at h
      · intro h
        cases hb : pairwiseCheck f (x :: rest) with
        | false => rfl
        | true => exact absurd ((pairwiseCheck_iff_chain f (x :: rest)).1 hb) h

/-- Witness for `comparator_adjacent_pairs` at `f = (· < ·)`,
`xs = [1, 2, 3]` and `xs = [3, 2]`. -/
theorem comparator_adjacent_pairs_witness :
    comparator (fun a b => a < b) ([1, 2, 3].map .Integer) = .ok (.Bool true)
    ∧ comparator (fun a b => a < b) ([3, 2].map .Integer) = .ok (.Bool false) := by
  constructor
  · exact ((comparator_adjacent_pairs (fun a b => a < b) [1, 2, 3]).2.2 (by decide)).1.2
      (by simp [List.chain'_cons])
  · exact ((comparator_adjacent_pairs (fun a b => a < b) [3, 2]).2.2 (by decide)).2.2
      (by simp [List.chain'_cons])

/-! ### C1 -/

/-- C1 counterexample: calling the one-parameter closure
`(lambda (x) 1)` with the two arguments `5` and `6` does not fail at
all — no arity check exists in `Function::call` — and returns
`Integer(1)` after evaluating the body, although the claim demands an
`ArityMismatch` failure and no body evaluation. -/
theorem surplus_args_call_succeeds :
    resultValue (evaluate 10 surplusArgsProgram globalEnv initStore)
      = some (.Integer 1) := rfl

/-- C1 amended: `Function::call` checks no arity; it binds parameters to
arguments positionally up to the shorter of the two sequences (the
`zip`) and always evaluates the body.  In particular surplus arguments
beyond the parameter count never change the result of the call. -/
theorem callFn_ignores_surplus_args (fuel : Nat) (f : Function)
    (args extra : List LispOutput) (s : Store)
    (h : f.parameters.length ≤ args.length) :
    callFn fuel f (args ++ extra) s = callFn fuel f args s := by
  cases fuel with
  | zero => rfl
  | succ n =>
    rw [callFn, callFn, zipBindings_surplus f.parameters args extra h]

/-- Witness for `callFn_ignores_surplus_args`: the closure of
`surplusArgsProgram` called with `[5, 6]` equals the same call with the
surplus `6` dropped. -/
theorem callFn_ignores_surplus_args_witness :
    callFn 5 ⟨["x"], .Integer 1, globalEnv⟩ ([.Integer 5] ++ [.Integer 6]) initStore
      = callFn 5 ⟨["x"], .Integer 1, globalEnv⟩ [.Integer 5] initStore :=
  callFn_ignores_surplus_args 5 ⟨["x"], .Integer 1, globalEnv⟩ [.Integer 5] [.Integer 6]
    initStore (by decide)

/-! ### C5 -/

/-- C5 counterexample: evaluating `(lambda (x x) 1)` — a parameter list
with a repeated symbol — succeeds and returns a closure whose parameter
vector is `["x", "x"]`, although the claim demands a failure from the
function constructor. -/
theorem duplicate_params_lambda_succeeds :
    evaluate 5 duplicateParamsLambda globalEnv initStore
      = .ok (.Lambda (.Function ⟨["x", "x"], .Integer 1, globalEnv⟩), initStore) := rfl

/-- C5 amended: `Function::build` accepts every list of symbols as a
parameter list, repeated names included — the names are collected in
order with no distinctness check; only a non-list parameter expression
or a non-symbol element fails. -/
theorem function_build_accepts_any_symbols (names : List String)
    (body : LispExpression) (env : Nat) (k : Int) :
    Function.build (.List (names.map .Symbol)) body env = .ok ⟨names, body, env⟩
    ∧ Function.build (.Integer k) body env = .error "parameters should be a list"
    ∧ Function.build (.List (names.map .Symbol ++ [.Integer k])) body env
        = .error "one or more parameters is not a LispExpression symbol" := by
  refine ⟨?_, rfl, ?_⟩
  · rw [Function.build, collectParams_map_symbol names]
  · rw [Function.build]
    have : collectParams (names.map .Symbol ++ [.Integer k])
        = .error "one or more parameters is not a LispExpression symbol" := by
      induction names with
      | nil => rfl
      | cons n rest ih =>
        simp only [List.map_cons, List.cons_append, collectParams, List.append_eq, ih]
    rw [this]

/-! ### C3 -/

/-- C3: closures capture the defining frame, not a snapshot of its
values — running `(define x 1)`, `(define f (lambda () x))`,
`(define x 2)` and `(f)` in order against the global frame yields
`Integer(2)`. -/
theorem closure_sees_rebound_variable :
    resultValue (evalSequence 20 scopePrograms globalEnv initStore)
      = some (.Integer 2) := rfl

/-! ### C2 -/

/-- C2: a closure created inside a `let` body and returned out of it
cannot be called: the `let` frame's only strong reference dies when the
`let` form returns, so `Weak::upgrade` on the captured frame yields
`None` and the `unwrap()` in `Function::call` panics. -/
theorem escaping_closure_call_panics :
    evaluate 20 escapingClosureProgram globalEnv initStore
      = .panic "called Option::unwrap() on a None value" := rfl

/-! ### C4 -/

/-- Slot accesses ignore `List.set` at other indices. -/
theorem getD_set_ne (l : List (Option Frame)) (i j : Nat) (v : Option Frame)
    (h : i ≠ j) : (l.set i v).getD j none = l.getD j none := by
  simp [List.getD_eq_getElem?_getD, List.getElem?_set_ne h]

/-- C4 counterexample: evaluating `(set! + 7)` against a fresh global
environment overwrites the binding of `+` in the built-ins frame — the
frame's binding for `+` changes from the built-in addition closure to
`Integer(7)`, although the claim says no user `set!` ever overwrites a
built-ins binding. -/
theorem set_bang_overwrites_builtins_binding :
    builtinsBindingAfter (evaluate 6 setBangPlusProgram globalEnv initStore) "+"
        = some (.Integer 7)
    ∧ assocGet builtInsFrame.bindings "+" = some (convert_to_built_in .add)
    ∧ some (LispOutput.Integer 7) ≠ some (convert_to_built_in .add) :=
  ⟨rfl, rfl, by simp [convert_to_built_in]⟩

/-- C4 amended: `define` and `del` write only to the frame they are
evaluated in — every other frame, the built-ins frame included, is left
untouched — but `set!` walks the parent chain and does overwrite a
built-ins binding when the name is unbound in every frame below, as
`(set! + 7)` shows. -/
theorem define_del_stay_local_set_bang_reaches_builtins :
    (∀ (s : Store) (e : Nat) (var : String) (val : LispOutput) (i : Nat), i ≠ e →
      (envSet s e var val).getFrame i = s.getFrame i)
    ∧ (∀ (s : Store) (e : Nat) (var : String) (v : LispOutput) (s' : Store) (i : Nat),
        envDel s e var = .ok (v, s') → i ≠ e → s'.getFrame i = s.getFrame i)
    ∧ builtinsBindingAfter (evaluate 6 setBangPlusProgram globalEnv initStore) "+"
        = some (.Integer 7) := by
  refine ⟨?_, ?_, rfl⟩
  · intro s e var val i hne
    rw [envSet]
    cases hf : s.getFrame e with
    | none => rfl
    | some f =>
      show Store.getFrame ⟨s.frames.set e _⟩ i = s.getFrame i
      rw [Store.getFrame, Store.getFrame]
      exact getD_set_ne s.frames e i _ (fun he => hne he.symm)
  · intro s e var v s' i hdel hne
    rw [envDel] at hdel
    cases hf : s.getFrame e with
    | none => rw [hf] at hdel; exact absurd hdel (by simp)
    | some f =>
      rw [hf] at hdel
      dsimp only at hdel
      cases hg : assocGet f.bindings var with
      | none => rw [hg] at hdel; exact absurd hdel (by simp)
      | some w =>
        rw [hg] at hdel
        dsimp only at hdel
        have hs' : s' = s.setFrame e { f with bindings := assocRemove f.bindings var } := by
          cases hdel; rfl
        rw [hs', Store.setFrame, Store.getFrame, Store.getFrame]
        exact getD_set_ne s.frames e i _ (fun he => hne he.symm)

/-- Witness for `define_del_stay_local_set_bang_reaches_builtins`: a
`define` into the global frame leaves the built-ins frame's slot
untouched, and deleting `x` from a frame that binds it leaves the other
slots untouched. -/
theorem define_del_stay_local_witness :
    (envSet initStore globalEnv "x" (.Integer 3)).getFrame 0 = initStore.getFrame 0
    ∧ ((⟨[some builtInsFrame, some ⟨[("x", .Integer 1)], some 0, 1⟩]⟩ : Store).setFrame
        globalEnv ⟨[], some 0, 1⟩).getFrame 0
      = (⟨[some builtInsFrame, some ⟨[("x", .Integer 1)], some 0, 1⟩]⟩ : Store).getFrame 0 := by
  constructor
  · exact define_del_stay_local_set_bang_reaches_builtins.1 initStore globalEnv "x"
      (.Integer 3) 0 (by decide)
  · exact define_del_stay_local_set_bang_reaches_builtins.2.1
      ⟨[some builtInsFrame, some ⟨[("x", .Integer 1)], some 0, 1⟩]⟩ globalEnv "x"
      (.Integer 1) _ 0 rfl (by decide)


/-! ### C6 -/

/-- C6: in `(if C T F)` the condition is evaluated first (its panic is
the form's panic, and the branches run in the condition's result
store); exactly `Bool(true)` selects `T`, every other condition value —
integers and lists included — selects `F`; and the untaken branch is
never evaluated: the form's result does not depend on the expression
standing in the untaken position. -/
theorem if_condition_dispatch (n : Nat) (c t f : LispExpression) (env : Nat) (s : Store) :
    (∀ s', evaluate n c env s = .ok (.Bool true, s') →
        evaluate (n + 1) (.List [.Symbol "if", c, t, f]) env s = evaluate n t env s')
    ∧ (∀ v s', evaluate n c env s = .ok (v, s') → v ≠ .Bool true →
        evaluate (n + 1) (.List [.Symbol "if", c, t, f]) env s = evaluate n f env s')
    ∧ (∀ m, evaluate n c env s = .panic m →
        evaluate (n + 1) (.List [.Symbol "if", c, t, f]) env s = .panic m)
    ∧ (∀ v s' t', evaluate n c env s = .ok (v, s') → v ≠ .Bool true →
        evaluate (n + 1) (.List [.Symbol "if", c, t, f]) env s
          = evaluate (n + 1) (.List [.Symbol "if", c, t', f]) env s)
    ∧ (∀ s' f', evaluate n c env s = .ok (.Bool true, s') →
        evaluate (n + 1) (.List [.Symbol "if", c, t, f]) env s
          = evaluate (n + 1) (.List [.Symbol "if", c, t, f']) env s) := by
  have notTrueArm : ∀ (t0 f0 : LispExpression) (v : LispOutput) (s' : Store),
      evaluate n c env s = .ok (v, s') → v ≠ .Bool true →
      evaluate (n + 1) (.List [.Symbol "if", c, t0, f0]) env s = evaluate n f0 env s' := by
    intro t0 f0 v s' h hv
    simp only [evaluate, h]
    cases v with
    | Bool bv =>
      cases bv with
      | true => exact absurd rfl hv
      | false => rfl
    | Void => rfl
    | Integer m => rfl
    | Lambda g => rfl
    | List l => rfl
  have trueArm : ∀ (t0 f0 : LispExpression) (s' : Store),
      evaluate n c env s = .ok (.Bool true, s') →
      evaluate (n + 1) (.List [.Symbol "if", c, t0, f0]) env s = evaluate n t0 env s' := by
    intro t0 f0 s' h
    simp only [evaluate, h]
    rfl
  refine ⟨fun s' h => trueArm t f s' h,
          fun v s' h hv => notTrueArm t f v s' h hv,
          ?_,
          fun v s' t' h hv => by rw [notTrueArm t f v s' h hv, notTrueArm t' f v s' h hv],
          fun s' f' h => by rw [trueArm t f s' h, trueArm t f' s' h]⟩
  intro m h
  simp only [evaluate, h]
  rfl

/-- Witness for `if_condition_dispatch`: with the integer condition `7`
the form returns the false branch's value, with the condition `#t` the
true branch's value. -/
theorem if_condition_dispatch_witness :
    evaluate 4 (.List [.Symbol "if", .Integer 7, .Integer 1, .Integer 0]) globalEnv initStore
      = .ok (.Integer 0, initStore)
    ∧ evaluate 4 (.List [.Symbol "if", .Symbol "#t", .Integer 1, .Integer 0]) globalEnv initStore
      = .ok (.Integer 1, initStore) := by
  constructor
  · have h := (if_condition_dispatch 3 (.Integer 7) (.Integer 1) (.Integer 0)
      globalEnv initStore).2.1 (.Integer 7) initStore rfl (by simp)
    rw [h]
    rfl
  · have h := (if_condition_dispatch 3 (.Symbol "#t") (.Integer 1) (.Integer 0)
      globalEnv initStore).1 initStore rfl
    rw [h]
    rfl

/-! ### C7 -/

/-- C7: `(and #f E)` yields `Bool(false)` and `(or #t E)` yields
`Bool(true)` with the store returned exactly as it came in — `E` is
arbitrary and never evaluated, so no `define` inside `E` can change any
frame's bindings.  The hypotheses say only that `#f` respectively `#t`
still resolve to the built-in truth values from the evaluation frame
(as they do in a fresh global environment). -/
theorem and_or_short_circuit (n : Nat) (E : LispExpression) (env : Nat) (s : Store) :
    (envGet (s.frames.length + 1) s env "#f" = .ok (.Bool false) →
      evaluate (n + 3) (.List [.Symbol "and", .Symbol "#f", E]) env s
        = .ok (.Bool false, s))
    ∧ (envGet (s.frames.length + 1) s env "#t" = .ok (.Bool true) →
      evaluate (n + 3) (.List [.Symbol "or", .Symbol "#t", E]) env s
        = .ok (.Bool true, s)) := by
  constructor
  · intro h
    have hsym : evaluate (n + 1) (.Symbol "#f") env s = .ok (.Bool false, s) := by
      simp only [evaluate, h]
    show evalAndLoop (n + 2) [.Symbol "#f", E] env s = .ok (.Bool false, s)
    simp only [evalAndLoop, hsym]
  · intro h
    have hsym : evaluate (n + 1) (.Symbol "#t") env s = .ok (.Bool true, s) := by
      simp only [evaluate, h]
    show evalOrLoop (n + 2) [.Symbol "#t", E] env s = .ok (.Bool true, s)
    simp only [evalOrLoop, hsym]

/-- Witness for `and_or_short_circuit` with `E` the side-effecting
`(define y 5)`: both forms short-circuit against a fresh global
environment and the store comes back unchanged — `y` is never
defined. -/
theorem and_or_short_circuit_witness :
    evaluate 3 (.List [.Symbol "and", .Symbol "#f",
        .List [.Symbol "define", .Symbol "y", .Integer 5]]) globalEnv initStore
      = .ok (.Bool false, initStore)
    ∧ evaluate 3 (.List [.Symbol "or", .Symbol "#t",
        .List [.Symbol "define", .Symbol "y", .Integer 5]]) globalEnv initStore
      = .ok (.Bool true, initStore) :=
  ⟨(and_or_short_circuit 0 (.List [.Symbol "define", .Symbol "y", .Integer 5])
      globalEnv initStore).1 rfl,
   (and_or_short_circuit 0 (.List [.Symbol "define", .Symbol "y", .Integer 5])
      globalEnv initStore).2 rfl⟩

/-! ### C10: helper lemmas about the tokenizer -/

theorem digit_toNat_bounds (c : Char) (h : c.isDigit = true) :
    (48 : Int) ≤ (c.toNat : Int) ∧ (c.toNat : Int) ≤ 57 := by
  simp only [Char.isDigit, Bool.and_eq_true, decide_eq_true_eq, ge_iff_le] at h
  obtain ⟨h1, h2⟩ := h
  rw [UInt32.le_def, BitVec.le_def] at h1 h2
  have e1 : c.val.toBitVec.toNat = c.toNat := rfl
  rw [e1] at h1 h2
  constructor
  · exact_mod_cast h1
  · exact_mod_cast h2

/-- A decimal digit is none of the characters the tokenizer treats
specially. -/
theorem digit_not_special (c : Char) (h : c.isDigit = true) :
    c ≠ '\n' ∧ c ≠ ';' ∧ c ≠ '(' ∧ c ≠ ')' ∧ isRustWhitespace c = false := by
  have hb := digit_toNat_bounds c h
  have hneq : ∀ d : Char, d.toNat < 48 ∨ 57 < d.toNat → c ≠ d := by
    intro d hd he
    subst he
    omega
  refine ⟨hneq _ (by decide), hneq _ (by decide), hneq _ (by decide), hneq _ (by decide), ?_⟩
  simp only [isRustWhitespace, Bool.or_eq_false_iff, beq_eq_false_iff_ne]
  refine ⟨⟨⟨⟨⟨?_, ?_⟩, ?_⟩, ?_⟩, ?_⟩, ?_⟩ <;> exact hneq _ (by decide)

theorem splitLines_no_newline : ∀ l : List Char, (∀ c ∈ l, c ≠ '\n') → splitLines l = [l]
  | [], _ => rfl
  | c :: cs, h => by
    rw [splitLines]
    have hc : c ≠ '\n' := h c (by simp)
    rw [if_neg hc, splitLines_no_newline cs (fun d hd => h d (by simp [hd]))]

theorem takeWhile_no_semicolon : ∀ l : List Char, (∀ c ∈ l, c ≠ ';') →
    l.takeWhile (fun c => c != ';') = l
  | [], _ => rfl
  | c :: cs, h => by
    rw [List.takeWhile_cons]
    have hc : (c != ';') = true := by
      simpa using h c (by simp)
    rw [hc]
    simp [takeWhile_no_semicolon cs (fun d hd => h d (by simp [hd]))]

theorem removeComments_id (l : List Char) (h : ∀ c ∈ l, c ≠ '\n' ∧ c ≠ ';') :
    removeComments l = l := by
  rw [removeComments, splitLines_no_newline l (fun c hc => (h c hc).1)]
  simp [takeWhile_no_semicolon l (fun c hc => (h c hc).2)]

theorem padParens_id : ∀ l : List Char, (∀ c ∈ l, c ≠ '(' ∧ c ≠ ')') → padParens l = l
  | [], _ => rfl
  | c :: cs, h => by
    have tail := padParens_id cs (fun d hd => h d (by simp [hd]))
    rw [padParens] at tail ⊢
    rw [List.flatMap_cons, if_neg (h c (by simp)).1, if_neg (h c (by simp)).2, tail]
    rfl

theorem splitWhitespaceAux_word : ∀ (l acc : List Char), l ≠ [] →
    (∀ c ∈ l, isRustWhitespace c = false) →
    splitWhitespaceAux l acc = [acc.reverse ++ l]
  | [], _, hne, _ => absurd rfl hne
  | c :: cs, acc, _, h => by
    rw [splitWhitespaceAux, h c (by simp)]
    show splitWhitespaceAux cs (c :: acc) = [acc.reverse ++ c :: cs]
    cases cs with
    | nil =>
      rw [splitWhitespaceAux]
      simp
    | cons d ds =>
      rw [splitWhitespaceAux_word (d :: ds) (c :: acc) (by simp)
        (fun e he => h e (by simp [he]))]
      simp

theorem digitsFold_nonneg : ∀ (ds : List Char) (acc : Int), 0 ≤ acc →
    (∀ c ∈ ds, c.isDigit = true) →
    0 ≤ ds.foldl (fun acc c => acc * 10 + ((c.toNat : Int) - 48)) acc
  | [], acc, ha, _ => ha
  | c :: cs, acc, ha, h => by
    rw [List.foldl_cons]
    have hb := digit_toNat_bounds c (h c (by simp))
    exact digitsFold_nonneg cs _ (by nlinarith [hb.1, hb.2]) (fun d hd => h d (by simp [hd]))

theorem digitsVal_nonneg (ds : List Char) (h : ∀ c ∈ ds, c.isDigit = true) :
    0 ≤ digitsVal ds :=
  digitsFold_nonneg ds 0 le_rfl h

/-- `parse::<i64>` accepts a word made of `+` and decimal digits whose
value fits. -/
theorem parseI64_plus_digits (ds : List Char) (hne : ds ≠ [])
    (hdig : ∀ c ∈ ds, c.isDigit = true) (hmax : digitsVal ds ≤ i64Max) :
    parseI64 ('+' :: ds) = some (digitsVal ds) := by
  rw [parseI64]
  have hall : ds.all Char.isDigit = true := by
    rw [List.all_eq_true]
    exact hdig
  have hmin : i64Min ≤ digitsVal ds := by
    have h0 := digitsVal_nonneg ds hdig
    have : i64Min ≤ 0 := by decide
    omega
  simp only [hall, if_neg hne, if_true]
  rw [if_pos ⟨hmin, hmax⟩]
  rfl

/-- C10: the tokenizer classifies a whitespace-delimited word that is a
`+` followed by decimal digits (whose value fits in `i64`) as an
`Integer` token with that value — Rust's `parse::<i64>` accepts a
leading `+`, so the word never becomes a `Symbol`. -/
theorem tokenize_plus_digits (ds : List Char) (hne : ds ≠ [])
    (hdig : ∀ c ∈ ds, c.isDigit = true) (hmax : digitsVal ds ≤ i64Max) :
    tokenize ('+' :: ds) = [.Integer (digitsVal ds)] := by
  have hword : ∀ c ∈ '+' :: ds, c ≠ '\n' ∧ c ≠ ';' ∧ c ≠ '(' ∧ c ≠ ')'
      ∧ isRustWhitespace c = false := by
    intro c hc
    rcases List.mem_cons.mp hc with hplus | hmem
    · subst hplus
      refine ⟨by decide, by decide, by decide, by decide, by decide⟩
    · exact digit_not_special c (hdig c hmem)
  rw [tokenize,
    removeComments_id _ (fun c hc => ⟨(hword c hc).1, (hword c hc).2.1⟩),
    padParens_id _ (fun c hc => ⟨(hword c hc).2.2.1, (hword c hc).2.2.2.1⟩),
    splitWhitespace,
    splitWhitespaceAux_word _ [] (by simp) (fun c hc => (hword c hc).2.2.2.2)]
  rw [List.map]
  have hcl : classifyWord ('+' :: ds) = .Integer (digitsVal ds) := by
    rw [classifyWord]
    have h1 : ('+' :: ds) ≠ ['('] := by
      intro he
      have : '+' = '(' := by
        injection he
      exact absurd this (by decide)
    have h2 : ('+' :: ds) ≠ [')'] := by
      intro he
      have : '+' = ')' := by
        injection he
      exact absurd this (by decide)
    rw [if_neg h1, if_neg h2, parseI64_plus_digits ds hne hdig hmax]
  simp [hcl]

/-- Witness for `tokenize_plus_digits`: the word `+5` becomes
`Integer(5)`. -/
theorem tokenize_plus_digits_witness :
    tokenize ['+', '5'] = [.Integer 5] := by
  have h := tokenize_plus_digits ['5'] (by decide) (by decide) (by decide)
  have hv : digitsVal ['5'] = 5 := rfl
  rw [hv] at h
  exact h
